import Mathlib

/-!
Verification of the remote-server command-execution gateway.

The definitions below are a shallow embedding of the repository's Python
sources:
* `src/security.py`  — `CommandValidator.sanitize_command` and
  `CommandValidator.is_command_allowed`;
* `src/config.py`    — `Settings.BLOCKED_COMMANDS`;
* `src/ssh_manager.py` — `SSHManager.execute_command` and
  `SSHManager.test_connection`, modelled over an abstract network whose
  behaviour is a parameter, with the sequence of client/network operations
  recorded as a trace;
* `src/app.py`       — the status-code classification of the
  `/api/servers/{id}/execute` handler.

Strings are modelled as `List Char`.  Python's `\s` class and `str.strip`
are modelled by the ASCII whitespace characters (space, tab, newline,
vertical tab, form feed, carriage return); `str.lower` is modelled by
`Char.toLower` (ASCII case folding).  Wall-clock durations are not modelled.
-/

/-- Python whitespace (`\s`, `str.strip` default), ASCII fragment. -/
def isPyWS (c : Char) : Bool :=
  c = ' ' || c = '\t' || c = '\n' || c = '\x0b' || c = '\x0c' || c = '\r'

/-- The character class `[;&|`$<>]` stripped by `sanitize_command`
(`src/security.py` line 51).  The backtick is written `Char.ofNat 96`. -/
def isMeta (c : Char) : Bool :=
  c = ';' || c = '&' || c = '|' || c = Char.ofNat 96 || c = '$' || c = '<' || c = '>'

/-- Python `str.strip()`: remove leading and trailing whitespace. -/
def pyStrip (l : List Char) : List Char :=
  ((l.dropWhile isPyWS).reverse.dropWhile isPyWS).reverse

/-- Worker for `re.sub(r'\s+', ' ', s)`: the flag records whether the
previous character was part of a whitespace run already replaced by a
single space. -/
def collapseGo : Bool → List Char → List Char
  | _, [] => []
  | prevWS, c :: rest =>
    if isPyWS c then
      if prevWS then collapseGo true rest else ' ' :: collapseGo true rest
    else
      c :: collapseGo false rest

/-- `re.sub(r'\s+', ' ', s)`: replace every maximal whitespace run by one
space. -/
def collapseWS (l : List Char) : List Char :=
  collapseGo false l

/-- `CommandValidator.sanitize_command` (`src/security.py` lines 45-52):
strip, collapse internal whitespace runs to single spaces, then delete the
shell metacharacters. -/
def sanitize_command (command : List Char) : List Char :=
  (collapseWS (pyStrip command)).filter (fun c => !isMeta c)

/-! ### A regular-expression matcher for the dangerous-pattern scan

`is_command_allowed` uses `re.search` with seven fixed patterns.  They use
only literals, character classes, concatenation, `*`, `+` and `{3,4}`, so a
standard Brzozowski-derivative matcher decides them.  Character classes are
predicate functions. -/

inductive RE where
  | emp : RE
  | eps : RE
  | cls : (Char → Bool) → RE
  | cat : RE → RE → RE
  | alt : RE → RE → RE
  | star : RE → RE

def RE.nullable : RE → Bool
  | .emp => false
  | .eps => true
  | .cls _ => false
  | .cat a b => a.nullable && b.nullable
  | .alt a b => a.nullable || b.nullable
  | .star _ => true

/-- Concatenation smart constructor (language-preserving simplification). -/
def RE.rcat : RE → RE → RE
  | .emp, _ => .emp
  | _, .emp => .emp
  | .eps, b => b
  | a, .eps => a
  | a, b => .cat a b

/-- Alternation smart constructor (language-preserving simplification). -/
def RE.ralt : RE → RE → RE
  | .emp, b => b
  | a, .emp => a
  | a, b => .alt a b

def RE.deriv : RE → Char → RE
  | .emp, _ => .emp
  | .eps, _ => .emp
  | .cls p, c => if p c then .eps else .emp
  | .cat a b, c =>
    if a.nullable then .ralt (.rcat (a.deriv c) b) (b.deriv c)
    else .rcat (a.deriv c) b
  | .alt a b, c => .ralt (a.deriv c) (b.deriv c)
  | .star a, c => .rcat (a.deriv c) (.star a)

/-- Does some prefix of `l` match `r`? -/
def matchHere (r : RE) (l : List Char) : Bool :=
  if r.nullable then true
  else
    match l with
    | [] => false
    | c :: rest => matchHere (r.deriv c) rest

/-- Boolean `re.search`: does any substring of `l` match `r`? -/
def reSearch (r : RE) (l : List Char) : Bool :=
  matchHere r l ||
    match l with
    | [] => false
    | _ :: rest => reSearch r rest

/-- Literal word. -/
def RE.lit (s : List Char) : RE :=
  s.foldr (fun c r => RE.cat (RE.cls (fun d => d = c)) r) RE.eps

/-- Python `.`: any character except newline. -/
def RE.dot : RE := RE.cls (fun c => c ≠ '\n')

def RE.dotStar : RE := RE.star RE.dot

/-- `r+` as `r r*`. -/
def RE.plus (r : RE) : RE := RE.cat r (RE.star r)

def RE.wsCls : RE := RE.cls isPyWS

/-- `rm\s+.*-.*[rf]` — rm with -r or -f flags. -/
def pat_rm : RE :=
  .cat (.lit "rm".toList)
    (.cat (.plus .wsCls)
      (.cat .dotStar (.cat (.lit "-".toList)
        (.cat .dotStar (.cls (fun c => c = 'r' || c = 'f'))))))

/-- `:\(\)\{.*;\s*:` — fork bomb.  The brace is `Char.ofNat 123`. -/
def pat_forkbomb : RE :=
  .cat (.lit [':', '(', ')', Char.ofNat 123])
    (.cat .dotStar (.cat (.lit [';']) (.cat (.star .wsCls) (.lit [':']))))

/-- `chmod\s+[0-7]{3,4}\s+.*` — chmod with 3-4 digit octal mode. -/
def pat_chmod : RE :=
  let oct : RE := .cls (fun c => '0' ≤ c && c ≤ '7')
  .cat (.lit "chmod".toList)
    (.cat (.plus .wsCls)
      (.cat (.cat oct (.cat oct (.cat oct (.alt .eps oct))))
        (.cat (.plus .wsCls) .dotStar)))

/-- `>\s*/dev/sd[a-z]` — writing to disk devices. -/
def pat_devsd : RE :=
  .cat (.lit ">".toList)
    (.cat (.star .wsCls)
      (.cat (.lit "/dev/sd".toList) (.cls (fun c => 'a' ≤ c && c ≤ 'z'))))

/-- `dd\s+.*if=.*of=` — dd with input and output files. -/
def pat_dd : RE :=
  .cat (.lit "dd".toList)
    (.cat (.plus .wsCls)
      (.cat .dotStar (.cat (.lit "if=".toList) (.cat .dotStar (.lit "of=".toList)))))

/-- `mkfs\s+` — format commands. -/
def pat_mkfs : RE := .cat (.lit "mkfs".toList) (.plus .wsCls)

/-- `>\s*/proc/` — writing to /proc. -/
def pat_proc : RE :=
  .cat (.lit ">".toList) (.cat (.star .wsCls) (.lit "/proc/".toList))

/-- The `dangerous_patterns` list of `src/security.py` lines 16-24, in
source order. -/
def dangerous_patterns : List RE :=
  [pat_rm, pat_forkbomb, pat_chmod, pat_devsd, pat_dd, pat_mkfs, pat_proc]

/-- `Settings.BLOCKED_COMMANDS` (`src/config.py` lines 18-21). -/
def BLOCKED_COMMANDS : List (List Char) :=
  ["rm -rf".toList, "rm -fr".toList, "rm -r".toList, "dd".toList,
   "mkfs".toList, "shutdown".toList, "reboot".toList, "halt".toList,
   "poweroff".toList, "init".toList, "kill".toList, "chmod 777".toList]

/-- The `allowed_prefixes` list of `src/security.py` lines 32-37, in source
order (note which entries carry a trailing space). -/
def allowed_prefixes : List (List Char) :=
  ["ls".toList, "pwd".toList, "whoami".toList, "date".toList,
   "uptime".toList, "free".toList, "df".toList, "ps".toList,
   "cat ".toList, "grep ".toList, "tail ".toList, "head ".toList,
   "wc ".toList, "find ".toList, "du ".toList, "uname".toList,
   "echo ".toList, "cd ".toList, "mkdir ".toList, "touch ".toList,
   "cp ".toList, "mv ".toList]

/-- Python substring containment (`needle in hay`). -/
def isSubstring (needle : List Char) : List Char → Bool
  | [] => needle.isPrefixOf []
  | c :: rest => needle.isPrefixOf (c :: rest) || isSubstring needle rest

/-- `command.lower().strip()` (`src/security.py` line 8). -/
def command_lower (command : List Char) : List Char :=
  pyStrip (command.map Char.toLower)

/-- The blocked-substring loop of `is_command_allowed` (lines 11-13). -/
def blockedScan (cl : List Char) : Bool :=
  BLOCKED_COMMANDS.any (fun b => isSubstring b cl)

/-- The dangerous-pattern loop of `is_command_allowed` (lines 26-28). -/
def dangerScan (cl : List Char) : Bool :=
  dangerous_patterns.any (fun p => reSearch p cl)

/-- The allow-prefix loop of `is_command_allowed` (lines 39-41). -/
def prefixScan (cl : List Char) : Bool :=
  allowed_prefixes.any (fun p => p.isPrefixOf cl)

/-- `CommandValidator.is_command_allowed` (`src/security.py` lines 6-43):
early-return `False` on a blocked substring, then on a dangerous pattern,
then accept exactly when an allowed prefix matches. -/
def is_command_allowed (command : List Char) : Bool :=
  let cl := command_lower command
  if blockedScan cl then false
  else if dangerScan cl then false
  else prefixScan cl

example : is_command_allowed "ls -la /home".toList = true := by decide
example : is_command_allowed "shutdown -h now".toList = false := by decide
example : is_command_allowed "lsblk".toList = true := by decide
example : is_command_allowed "cat address.txt".toList = false := by decide
example : is_command_allowed "rm -rf /".toList = false := by decide
example : sanitize_command "cat /etc/passwd; rm -rf /".toList
    = "cat /etc/passwd rm -rf /".toList := by decide
example : sanitize_command "a ; b".toList = "a  b".toList := by decide

/-- First whitespace-delimited token of a (lowered, stripped) command. -/
def firstToken (cl : List Char) : List Char :=
  cl.takeWhile (fun c => !isPyWS c)

/-- Token-exact acceptance, modelled from the claim wording of C6 for
comparison with the source's prefix matching: the first token, or the first
token plus one trailing space, is exactly one of the allow-list entries. -/
def tokenExactAllowed (cmd : List Char) : Bool :=
  let t := firstToken (command_lower cmd)
  allowed_prefixes.any (fun p => p = t || p = t ++ [' '])

/-- Claim C2: whenever `is_command_allowed` returns `true`, the lower-cased
stripped form of the command starts with one of the configured allow
prefixes, contains none of the blocklist substrings, and matches none of
the seven dangerous regex signatures. -/
theorem is_command_allowed_sound (cmd : List Char)
    (hOK : is_command_allowed cmd = true) :
    prefixScan (command_lower cmd) = true
      ∧ (∀ b ∈ BLOCKED_COMMANDS, isSubstring b (command_lower cmd) = false)
      ∧ (∀ p ∈ dangerous_patterns, reSearch p (command_lower cmd) = false) := by
  unfold is_command_allowed at hOK
  by_cases hb : blockedScan (command_lower cmd)
  · simp [hb] at hOK
  · by_cases hd : dangerScan (command_lower cmd)
    · simp [hb, hd] at hOK
    · refine ⟨by simpa [hb, hd] using hOK, ?_, ?_⟩
      · simp only [Bool.not_eq_true, blockedScan, List.any_eq_false,
          Bool.not_eq_true] at hb
        exact hb
      · simp only [Bool.not_eq_true, dangerScan, List.any_eq_false,
          Bool.not_eq_true] at hd
        exact hd

/-- Witness for C2 at the spec's sample input. -/
theorem is_command_allowed_sound_w :
    is_command_allowed "ls -la /home".toList = true
      ∧ prefixScan (command_lower "ls -la /home".toList) = true :=
  ⟨by decide, (is_command_allowed_sound "ls -la /home".toList (by decide)).1⟩

/-- Claim C5: no stripped metacharacter survives in the output of
`sanitize_command`. -/
theorem sanitize_no_metachar (x : List Char) (c : Char)
    (hc : isMeta c = true) : c ∉ sanitize_command x := by
  intro hmem
  unfold sanitize_command at hmem
  have h2 := (List.mem_filter.mp hmem).2
  simp [hc] at h2

/-- Witness for C5: the semicolon is a metacharacter and is gone after
sanitizing. -/
theorem sanitize_no_metachar_w :
    isMeta ';' = true ∧ ';' ∉ sanitize_command "ls ; rm".toList :=
  ⟨by decide, sanitize_no_metachar "ls ; rm".toList ';' (by decide)⟩

/-- Counterexample to claim C6 as stated: `lsblk` passes both scans and is
accepted by `is_command_allowed` (via `startswith` on the entry `ls`), yet
its first token is not token-exactly one of the allow-list verbs. -/
theorem allow_prefix_not_token_exact :
    blockedScan (command_lower "lsblk".toList) = false
      ∧ dangerScan (command_lower "lsblk".toList) = false
      ∧ is_command_allowed "lsblk".toList = true
      ∧ tokenExactAllowed "lsblk".toList = false := by decide

/-- Claim C6 as amended: for a command passing the blocklist and
dangerous-pattern scans, `is_command_allowed` accepts exactly when one of
the configured prefix strings is a string prefix of the lower-cased
stripped command (so a first token merely beginning with a spaceless verb,
such as `lsblk` for `ls`, is accepted). -/
theorem allow_prefix_gate (cmd : List Char)
    (hb : blockedScan (command_lower cmd) = false)
    (hd : dangerScan (command_lower cmd) = false) :
    is_command_allowed cmd = true ↔ prefixScan (command_lower cmd) = true := by
  unfold is_command_allowed
  simp [hb, hd]

/-- Witness for the amended C6. -/
theorem allow_prefix_gate_w :
    blockedScan (command_lower "lsblk".toList) = false
      ∧ (is_command_allowed "lsblk".toList = true
          ↔ prefixScan (command_lower "lsblk".toList) = true) :=
  ⟨by decide, allow_prefix_gate "lsblk".toList (by decide) (by decide)⟩

/-! ### Structural facts about `sanitize_command`, used for claim C4 -/

theorem head?_dropWhile_false (p : Char → Bool) (l : List Char) :
    ∀ c, (l.dropWhile p).head? = some c → p c = false := by
  induction l with
  | nil => intro c h; simp at h
  | cons a rest ih =>
    intro c h
    by_cases ha : p a
    · rw [List.dropWhile_cons_of_pos ha] at h
      exact ih c h
    · rw [List.dropWhile_cons_of_neg ha] at h
      simp only [List.head?_cons, Option.some.injEq] at h
      subst h
      exact Bool.eq_false_iff.mpr ha

theorem getLast?_dropWhile_of_ne_nil (p : Char → Bool) (l : List Char)
    (h : l.dropWhile p ≠ []) :
    (l.dropWhile p).getLast? = l.getLast? := by
  conv_rhs => rw [← List.takeWhile_append_dropWhile (p := p) (l := l)]
  rw [List.getLast?_append]
  rcases hx : (l.dropWhile p).getLast? with _ | c
  · exact absurd (List.getLast?_eq_none_iff.mp hx) h
  · simp [Option.or]

theorem mem_pyStrip {a : Char} {l : List Char} (h : a ∈ pyStrip l) : a ∈ l := by
  unfold pyStrip at h
  rw [List.mem_reverse] at h
  have h1 := (List.dropWhile_sublist (l := (l.dropWhile isPyWS).reverse) isPyWS).subset h
  rw [List.mem_reverse] at h1
  exact (List.dropWhile_sublist (l := l) isPyWS).subset h1

theorem pyStrip_head (l : List Char) :
    ∀ c, (pyStrip l).head? = some c → isPyWS c = false := by
  intro c h
  unfold pyStrip at h
  rw [List.head?_reverse] at h
  have hne : (l.dropWhile isPyWS).reverse.dropWhile isPyWS ≠ [] := by
    intro hnil
    rw [hnil] at h
    simp at h
  rw [getLast?_dropWhile_of_ne_nil _ _ hne] at h
  rw [← List.head?_reverse, List.reverse_reverse] at h
  exact head?_dropWhile_false isPyWS l c h

theorem pyStrip_last (l : List Char) :
    ∀ c, (pyStrip l).getLast? = some c → isPyWS c = false := by
  intro c h
  unfold pyStrip at h
  rw [List.getLast?_eq_head?_reverse, List.reverse_reverse] at h
  exact head?_dropWhile_false isPyWS _ c h

theorem pyStrip_eq_self (l : List Char)
    (hh : ∀ c, l.head? = some c → isPyWS c = false)
    (hl : ∀ c, l.getLast? = some c → isPyWS c = false) :
    pyStrip l = l := by
  unfold pyStrip
  have h1 : l.dropWhile isPyWS = l := by
    cases l with
    | nil => rfl
    | cons c t =>
      exact List.dropWhile_cons_of_neg
        (by simp [hh c rfl])
  rw [h1]
  have h2 : l.reverse.dropWhile isPyWS = l.reverse := by
    cases hr : l.reverse with
    | nil => rfl
    | cons c t =>
      refine List.dropWhile_cons_of_neg ?_
      have : l.getLast? = some c := by
        rw [List.getLast?_eq_head?_reverse, hr]
        rfl
      simp [hl c this]
  rw [h2, List.reverse_reverse]

theorem collapseGo_cons_ws_true {c : Char} {rest : List Char}
    (hc : isPyWS c = true) :
    collapseGo true (c :: rest) = collapseGo true rest := by
  simp [collapseGo, hc]

theorem collapseGo_cons_ws_false {c : Char} {rest : List Char}
    (hc : isPyWS c = true) :
    collapseGo false (c :: rest) = ' ' :: collapseGo true rest := by
  simp [collapseGo, hc]

theorem collapseGo_cons_not_ws (b : Bool) {c : Char} {rest : List Char}
    (hc : isPyWS c = false) :
    collapseGo b (c :: rest) = c :: collapseGo false rest := by
  cases b <;> simp [collapseGo, hc]

theorem mem_collapseGo {a : Char} (b : Bool) (l : List Char)
    (h : a ∈ collapseGo b l) : a ∈ l ∨ a = ' ' := by
  induction l generalizing b with
  | nil => simp [collapseGo] at h
  | cons c rest ih =>
    cases hc : isPyWS c with
    | true =>
      cases b with
      | true =>
        rw [collapseGo_cons_ws_true hc] at h
        rcases ih true h with h1 | h1
        · exact Or.inl (List.mem_cons_of_mem _ h1)
        · exact Or.inr h1
      | false =>
        rw [collapseGo_cons_ws_false hc, List.mem_cons] at h
        rcases h with h1 | h1
        · exact Or.inr h1
        · rcases ih true h1 with h2 | h2
          · exact Or.inl (List.mem_cons_of_mem _ h2)
          · exact Or.inr h2
    | false =>
      rw [collapseGo_cons_not_ws b hc, List.mem_cons] at h
      rcases h with h1 | h1
      · exact Or.inl (by simp [h1])
      · rcases ih false h1 with h2 | h2
        · exact Or.inl (List.mem_cons_of_mem _ h2)
        · exact Or.inr h2

theorem collapseGo_ws_space (b : Bool) (l : List Char) :
    ∀ a ∈ collapseGo b l, isPyWS a = true → a = ' ' := by
  induction l generalizing b with
  | nil => intro a ha; simp [collapseGo] at ha
  | cons c rest ih =>
    intro a ha hws
    cases hc : isPyWS c with
    | true =>
      cases b with
      | true =>
        rw [collapseGo_cons_ws_true hc] at ha
        exact ih true a ha hws
      | false =>
        rw [collapseGo_cons_ws_false hc, List.mem_cons] at ha
        rcases ha with h1 | h1
        · exact h1
        · exact ih true a h1 hws
    | false =>
      rw [collapseGo_cons_not_ws b hc, List.mem_cons] at ha
      rcases ha with h1 | h1
      · subst h1
        exact absurd hws (by simp [hc])
      · exact ih false a h1 hws

theorem collapseGo_true_head_not_ws (l : List Char) :
    ∀ c, (collapseGo true l).head? = some c → isPyWS c = false := by
  induction l with
  | nil => intro c h; simp [collapseGo] at h
  | cons d rest ih =>
    intro c h
    cases hd : isPyWS d with
    | true =>
      rw [collapseGo_cons_ws_true hd] at h
      exact ih c h
    | false =>
      rw [collapseGo_cons_not_ws true hd] at h
      simp only [List.head?_cons, Option.some.injEq] at h
      subst h
      exact hd

theorem collapseGo_head_not_ws (l : List Char)
    (hh : ∀ c, l.head? = some c → isPyWS c = false) :
    ∀ c, (collapseGo false l).head? = some c → isPyWS c = false := by
  cases l with
  | nil => intro c h; simp [collapseGo] at h
  | cons d rest =>
    intro c h
    have hd : isPyWS d = false := hh d rfl
    rw [collapseGo_cons_not_ws false hd] at h
    simp only [List.head?_cons, Option.some.injEq] at h
    subst h
    exact hd

theorem collapseGo_chain (b : Bool) (l : List Char) :
    (collapseGo b l).Chain'
      (fun x y => ¬(isPyWS x = true ∧ isPyWS y = true)) := by
  induction l generalizing b with
  | nil => simp [collapseGo]
  | cons c rest ih =>
    cases hc : isPyWS c with
    | true =>
      cases b with
      | true =>
        rw [collapseGo_cons_ws_true hc]
        exact ih true
      | false =>
        rw [collapseGo_cons_ws_false hc, List.chain'_cons']
        refine ⟨?_, ih true⟩
        intro y hy h2
        cases hcy : (collapseGo true rest).head? with
        | none => rw [hcy] at hy; exact absurd hy (by simp)
        | some z =>
          rw [hcy] at hy
          simp only [Option.mem_def, Option.some.injEq] at hy
          subst hy
          have hny := collapseGo_true_head_not_ws rest z hcy
          rw [hny] at h2
          exact Bool.false_ne_true h2.2
    | false =>
      rw [collapseGo_cons_not_ws b hc, List.chain'_cons']
      refine ⟨?_, ih false⟩
      intro y hy h2
      rw [hc] at h2
      exact Bool.false_ne_true h2.1

theorem collapseGo_true_eq_false_of_head (l : List Char)
    (hh : ∀ c, l.head? = some c → isPyWS c = false) :
    collapseGo true l = collapseGo false l := by
  cases l with
  | nil => rfl
  | cons c rest =>
    have hc : isPyWS c = false := hh c rfl
    rw [collapseGo_cons_not_ws true hc, collapseGo_cons_not_ws false hc]

theorem collapseGo_false_noop (l : List Char)
    (hsp : ∀ a ∈ l, isPyWS a = true → a = ' ')
    (hch : l.Chain' (fun x y => ¬(isPyWS x = true ∧ isPyWS y = true))) :
    collapseGo false l = l := by
  induction l with
  | nil => rfl
  | cons c rest ih =>
    rw [List.chain'_cons'] at hch
    have ihr : collapseGo false rest = rest :=
      ih (fun a ha => hsp a (List.mem_cons_of_mem _ ha)) hch.2
    cases hc : isPyWS c with
    | true =>
      have hcsp : c = ' ' := hsp c (List.mem_cons_self _ _) hc
      have hrest : ∀ d, rest.head? = some d → isPyWS d = false := by
        intro d hd
        cases hdws : isPyWS d with
        | false => rfl
        | true =>
          exact absurd ⟨hc, hdws⟩ (hch.1 d (by rw [hd]; rfl))
      rw [collapseGo_cons_ws_false hc,
        collapseGo_true_eq_false_of_head rest hrest, ihr, hcsp]
    | false =>
      rw [collapseGo_cons_not_ws false hc, ihr]

theorem collapseGo_false_cons_ne_nil (c : Char) (rest : List Char) :
    collapseGo false (c :: rest) ≠ [] := by
  cases hc : isPyWS c with
  | true => rw [collapseGo_cons_ws_false hc]; simp
  | false => rw [collapseGo_cons_not_ws false hc]; simp

theorem collapseGo_true_eq_nil_iff (l : List Char) :
    collapseGo true l = [] ↔ ∀ a ∈ l, isPyWS a = true := by
  induction l with
  | nil => simp [collapseGo]
  | cons c rest ih =>
    cases hc : isPyWS c with
    | true =>
      rw [collapseGo_cons_ws_true hc, ih]
      constructor
      · intro h a ha
        rcases List.mem_cons.mp ha with h1 | h1
        · subst h1; exact hc
        · exact h a h1
      · intro h a ha
        exact h a (List.mem_cons_of_mem _ ha)
    | false =>
      rw [collapseGo_cons_not_ws true hc]
      constructor
      · intro h; exact absurd h (by simp)
      · intro h
        exact absurd (h c (List.mem_cons_self _ _)) (by simp [hc])

theorem collapseGo_getLast_not_ws (b : Bool) (l : List Char)
    (hl : ∀ c, l.getLast? = some c → isPyWS c = false) :
    ∀ c, (collapseGo b l).getLast? = some c → isPyWS c = false := by
  induction l generalizing b with
  | nil => intro c h; simp [collapseGo] at h
  | cons c rest ih =>
    intro d hd
    cases rest with
    | nil =>
      have hc : isPyWS c = false := hl c (by rfl)
      rw [collapseGo_cons_not_ws b hc] at hd
      simp only [collapseGo, List.getLast?_singleton, Option.some.injEq] at hd
      subst hd
      exact hc
    | cons r rs =>
      have hl2 : ∀ e, (r :: rs).getLast? = some e → isPyWS e = false := by
        intro e he
        exact hl e (by rwa [List.getLast?_cons_cons])
      cases hc : isPyWS c with
      | true =>
        cases b with
        | true =>
          rw [collapseGo_cons_ws_true hc] at hd
          exact ih true hl2 d hd
        | false =>
          rw [collapseGo_cons_ws_false hc] at hd
          rcases hg : collapseGo true (r :: rs) with _ | ⟨g, gs⟩
          · exfalso
            have hall := (collapseGo_true_eq_nil_iff (r :: rs)).mp hg
            rcases he : (r :: rs).getLast? with _ | e
            · simp at he
            · have hmem := List.mem_of_getLast?_eq_some he
              exact absurd (hall e hmem) (by simp [hl2 e he])
          · rw [hg, List.getLast?_cons_cons] at hd
            rw [← hg] at hd
            exact ih true hl2 d hd
      | false =>
        rw [collapseGo_cons_not_ws b hc] at hd
        rcases hg : collapseGo false (r :: rs) with _ | ⟨g, gs⟩
        · exact absurd hg (collapseGo_false_cons_ne_nil r rs)
        · rw [hg, List.getLast?_cons_cons] at hd
          rw [← hg] at hd
          exact ih false hl2 d hd

theorem filter_noMeta_eq_self (l : List Char)
    (h : ∀ a ∈ l, isMeta a = false) :
    l.filter (fun c => !isMeta c) = l :=
  List.filter_eq_self.mpr (fun a ha => by simp [h a ha])

theorem sanitize_mem_noMeta (x : List Char) :
    ∀ a ∈ sanitize_command x, isMeta a = false := by
  intro a ha
  unfold sanitize_command at ha
  have h2 := (List.mem_filter.mp ha).2
  simpa using h2

/-- Any list satisfying the normal form produced by a second sanitization
pass is a fixed point of `sanitize_command`. -/
theorem sanitize_command_fix (l : List Char)
    (hm : ∀ a ∈ l, isMeta a = false)
    (hsp : ∀ a ∈ l, isPyWS a = true → a = ' ')
    (hch : l.Chain' (fun x y => ¬(isPyWS x = true ∧ isPyWS y = true)))
    (hh : ∀ c, l.head? = some c → isPyWS c = false)
    (hl : ∀ c, l.getLast? = some c → isPyWS c = false) :
    sanitize_command l = l := by
  unfold sanitize_command collapseWS
  rw [pyStrip_eq_self l hh hl, collapseGo_false_noop l hsp hch,
    filter_noMeta_eq_self l hm]

/-- Counterexample to claim C4 as stated: deleting the semicolon of
`a ; b` merges two single-space runs into a double space, so a second
application of `sanitize_command` changes the string again. -/
theorem sanitize_not_idempotent :
    sanitize_command (sanitize_command "a ; b".toList)
      ≠ sanitize_command "a ; b".toList := by decide

/-- Claim C4 as amended: `sanitize_command` stabilizes from the second
application on — for every input string x,
`sanitize(sanitize(sanitize x)) = sanitize(sanitize x)`; single-application
idempotence fails exactly when deleting a metacharacter merges whitespace
runs or exposes leading/trailing whitespace. -/
theorem sanitize_command_stable (x : List Char) :
    sanitize_command (sanitize_command (sanitize_command x))
      = sanitize_command (sanitize_command x) := by
  have hyM : ∀ a ∈ sanitize_command x, isMeta a = false := sanitize_mem_noMeta x
  have hwM : ∀ a ∈ collapseWS (pyStrip (sanitize_command x)), isMeta a = false := by
    intro a ha
    rcases mem_collapseGo false _ ha with h | h
    · exact hyM a (mem_pyStrip h)
    · subst h; decide
  have hzw : sanitize_command (sanitize_command x)
      = collapseWS (pyStrip (sanitize_command x)) := by
    unfold sanitize_command
    exact filter_noMeta_eq_self _ hwM
  rw [hzw]
  exact sanitize_command_fix _ hwM
    (collapseGo_ws_space false _) (collapseGo_chain false _)
    (collapseGo_head_not_ws _ (pyStrip_head (sanitize_command x)))
    (collapseGo_getLast_not_ws false _ (pyStrip_last (sanitize_command x)))

/-- Claim C10: substring containment of any blocked string anywhere in the
lower-cased stripped command forces rejection, regardless of the allow
prefixes. -/
theorem blocked_substring_rejects (cmd : List Char)
    (hb : blockedScan (command_lower cmd) = true) :
    is_command_allowed cmd = false := by
  unfold is_command_allowed
  simp [hb]

/-- Witness for C10: `cat address.txt` contains the blocked substring `dd`
inside the word `address`, starts with the allowed prefix `cat `, and is
rejected. -/
theorem blocked_substring_rejects_w :
    isSubstring "dd".toList (command_lower "cat address.txt".toList) = true
      ∧ prefixScan (command_lower "cat address.txt".toList) = true
      ∧ is_command_allowed "cat address.txt".toList = false :=
  ⟨by decide, by decide,
    blocked_substring_rejects "cat address.txt".toList (by decide)⟩

/-! ### Session executor and gateway (`src/ssh_manager.py`, `src/app.py`)

`SSHManager.execute_command` and `SSHManager.test_connection` are modelled
over an abstract network behaviour `Net`: each paramiko call either
succeeds or raises a recorded exception.  Every client/network operation is
logged to a trace, so "no network I/O" and "the session is closed" are
statements about the trace.  Wall-clock `execution_time` is not modelled;
the success value is the `(output, error, exit_code)` triple. -/

/-- Exceptions raised by the paramiko/socket layer.  The network layer is
assumed not to raise a bare Python `ValueError`; `ValueError` is reserved
for the two raise statements inside `execute_command` itself. -/
inductive NetExc where
  | authExc : NetExc
  | sshExc : List Char → NetExc
  | otherExc : List Char → NetExc
deriving DecidableEq

/-- An exception in flight inside the try block of `execute_command`:
either one of its own `ValueError`s or a library exception. -/
inductive PyExc where
  | valueErr : List Char → PyExc
  | netErr : NetExc → PyExc
deriving DecidableEq

/-- What `str(e)` yields for the exceptions in scope.  The `authExc` case
never reaches the generic wrap below because `AuthenticationException` is
matched by an earlier except clause. -/
def PyExc.msg : PyExc → List Char
  | .valueErr m => m
  | .netErr .authExc => "Authentication failed.".toList
  | .netErr (.sshExc m) => m
  | .netErr (.otherExc m) => m

/-- Behaviour of the remote side for one invocation: whether key parsing,
connecting and command execution raise, and the streams/exit code on
success. -/
structure Net where
  keyParse : Option NetExc
  connect : Option NetExc
  exec : Option NetExc
  execOut : List Char
  execErr : List Char
  execCode : Int
deriving DecidableEq

/-- Client and network operations, recorded in execution order. -/
inductive Act where
  | createClient : Act
  | parseKey : List Char → Act
  | connectKey : List Char → List Char → Nat → Act
  | connectPwd : List Char → List Char → Nat → List Char → Act
  | execCmd : List Char → Act
  | closeClient : Act
deriving DecidableEq

/-- Is this action a password-authenticated connect? -/
def Act.isConnectPwd : Act → Bool
  | .connectPwd _ _ _ _ => true
  | _ => false

/-- Python truthiness of a `str = None` parameter: `None` and the empty
string are falsy (`if ssh_key:` / `elif password:`). -/
def truthy : Option (List Char) → Bool
  | none => false
  | some s => !s.isEmpty

/-- `f"Command not allowed: {command}"` (`src/ssh_manager.py` line 30). -/
def policyViolationMsg (command : List Char) : List Char :=
  "Command not allowed: ".toList ++ command

/-- The missing-credential `ValueError` message (line 58). -/
def missingCredMsg : List Char :=
  "Either password or SSH key must be provided".toList

/-- The try-block body of `SSHManager.execute_command` (lines 27-72):
validate the command, create the client, authenticate by key if `ssh_key`
is truthy, else by password if truthy, else raise; then execute and
collect. -/
def execBody (net : Net) (host username : List Char) (port : Nat)
    (password ssh_key : Option (List Char)) (command : List Char) :
    Except PyExc (List Char × List Char × Int) × List Act :=
  if is_command_allowed command = false then
    (.error (.valueErr (policyViolationMsg command)), [])
  else
    if truthy ssh_key then
      let key := ssh_key.getD []
      match net.keyParse with
      | some e => (.error (.netErr e), [.createClient, .parseKey key])
      | none =>
        match net.connect with
        | some e =>
          (.error (.netErr e),
           [.createClient, .parseKey key, .connectKey host username port])
        | none =>
          match net.exec with
          | some e =>
            (.error (.netErr e),
             [.createClient, .parseKey key, .connectKey host username port,
              .execCmd command])
          | none =>
            (.ok (net.execOut, net.execErr, net.execCode),
             [.createClient, .parseKey key, .connectKey host username port,
              .execCmd command])
    else if truthy password then
      let pw := password.getD []
      match net.connect with
      | some e =>
        (.error (.netErr e),
         [.createClient, .connectPwd host username port pw])
      | none =>
        match net.exec with
        | some e =>
          (.error (.netErr e),
           [.createClient, .connectPwd host username port pw,
            .execCmd command])
        | none =>
          (.ok (net.execOut, net.execErr, net.execCode),
           [.createClient, .connectPwd host username port pw,
            .execCmd command])
    else
      (.error (.valueErr missingCredMsg), [.createClient])

/-- Exceptions that `execute_command` lets escape: its except clauses
(lines 74-79) re-raise everything as a plain `Exception`; in particular its
own `ValueError`s fall into the final `except Exception` clause and are
re-wrapped, so a `ValueError` never escapes. -/
inductive RaisedExc where
  | valueError : List Char → RaisedExc
  | exception : List Char → RaisedExc
deriving DecidableEq

/-- The except-clause classification of `execute_command` (lines 74-79), in
source order: `AuthenticationException`, then `SSHException`, then the
catch-all `Exception` wrap. -/
def wrapExc : PyExc → RaisedExc
  | .netErr .authExc =>
    .exception "Authentication failed. Check credentials.".toList
  | .netErr (.sshExc m) =>
    .exception ("SSH connection failed: ".toList ++ m)
  | e => .exception ("Error executing command: ".toList ++ e.msg)

/-- `SSHManager.execute_command` (lines 10-82): run the try body, close the
client in the `finally` clause whenever it was created, and re-raise
classified exceptions. -/
def execute_command (net : Net) (host username : List Char) (port : Nat)
    (password ssh_key : Option (List Char)) (command : List Char) :
    Except RaisedExc (List Char × List Char × Int) × List Act :=
  let p := execBody net host username port password ssh_key command
  (p.1.mapError wrapExc,
   if Act.createClient ∈ p.2 then p.2 ++ [Act.closeClient] else p.2)

/-- The hardcoded probe command of `test_connection` (line 120). -/
def testCmd : List Char := "echo 'Connection successful'".toList

/-- The try-block body of `SSHManager.test_connection` (lines 94-125): the
client is created first, missing credentials return `False` with no
network call, every exception is converted to `False`, and success checks
the probe output. -/
def testBody (net : Net) (host username : List Char) (port : Nat)
    (password ssh_key : Option (List Char)) : Bool × List Act :=
  if truthy ssh_key then
    let key := ssh_key.getD []
    match net.keyParse with
    | some _ => (false, [.createClient, .parseKey key])
    | none =>
      match net.connect with
      | some _ =>
        (false, [.createClient, .parseKey key, .connectKey host username port])
      | none =>
        match net.exec with
        | some _ =>
          (false, [.createClient, .parseKey key,
            .connectKey host username port, .execCmd testCmd])
        | none =>
          (isSubstring "Connection successful".toList (pyStrip net.execOut),
           [.createClient, .parseKey key, .connectKey host username port,
            .execCmd testCmd])
  else if truthy password then
    let pw := password.getD []
    match net.connect with
    | some _ =>
      (false, [.createClient, .connectPwd host username port pw])
    | none =>
      match net.exec with
      | some _ =>
        (false, [.createClient, .connectPwd host username port pw,
          .execCmd testCmd])
      | none =>
        (isSubstring "Connection successful".toList (pyStrip net.execOut),
         [.createClient, .connectPwd host username port pw, .execCmd testCmd])
  else
    (false, [.createClient])

/-- `SSHManager.test_connection` (lines 84-128): the try body followed by
the `finally` close (the client is always created). -/
def test_connection (net : Net) (host username : List Char) (port : Nat)
    (password ssh_key : Option (List Char)) : Bool × List Act :=
  let p := testBody net host username port password ssh_key
  (p.1, p.2 ++ [Act.closeClient])

/-- Status classification of the `/api/servers/.../execute` handler
(`src/app.py` lines 286-345): sanitize the raw command, call
`execute_command`; `ValueError` maps to HTTP 400 and any other exception
to HTTP 500.  (Fetching the server record, logging and notification do not
affect the status classification and are not modelled.) -/
def appExecuteStatus (net : Net) (host username : List Char) (port : Nat)
    (password ssh_key : Option (List Char)) (rawCommand : List Char) : Nat :=
  let command := sanitize_command rawCommand
  match (execute_command net host username port password ssh_key command).1 with
  | .ok _ => 200
  | .error (.valueError _) => 400
  | .error (.exception _) => 500

/-- A benign network behaviour, used in witnesses. -/
def netOk : Net :=
  ⟨none, none, none, "ok".toList, [], 0⟩

/-- A network behaviour in which every operation fails, used in
witnesses. -/
def netBad : Net :=
  ⟨some (.sshExc "bad key".toList), some .authExc,
   some (.otherExc "boom".toList), [], [], 1⟩

/-- Claim C1: when the policy rejects the command, `execute_command`
raises an error carrying the policy-violation reason and performs no
operation at all — in particular no network I/O; the trace is empty. -/
theorem exec_policy_reject_no_network (net : Net) (host username : List Char)
    (port : Nat) (password ssh_key : Option (List Char)) (command : List Char)
    (hrej : is_command_allowed command = false) :
    execute_command net host username port password ssh_key command
      = (.error (.exception ("Error executing command: ".toList
          ++ policyViolationMsg command)), []) := by
  unfold execute_command execBody
  rw [hrej]
  simp [wrapExc, PyExc.msg, Except.mapError]

/-- Witness for C1 at the spec's sample rejected input. -/
theorem exec_policy_reject_no_network_w :
    is_command_allowed "shutdown -h now".toList = false
      ∧ execute_command netOk "h".toList "u".toList 22 none none
          "shutdown -h now".toList
        = (.error (.exception ("Error executing command: ".toList
            ++ policyViolationMsg "shutdown -h now".toList)), []) :=
  ⟨by decide,
   exec_policy_reject_no_network netOk "h".toList "u".toList 22 none none
     "shutdown -h now".toList (by decide)⟩

/-- Claim C3 (recording the code bug): both the policy-violation path and
the missing-credential path surface as the 5xx-equivalent outcome, because
the final `except Exception` clause of `execute_command` re-wraps its own
`ValueError`s into a plain `Exception`, which the handler's
`except ValueError` (HTTP 400) can never catch. -/
theorem client_errors_become_500 (net : Net) (host username : List Char)
    (port : Nat) (password ssh_key : Option (List Char)) :
    appExecuteStatus net host username port password ssh_key
        "shutdown -h now".toList = 500
      ∧ appExecuteStatus net host username port none none "ls".toList = 500 := by
  constructor
  · have h1 : is_command_allowed (sanitize_command "shutdown -h now".toList)
        = false := by decide
    unfold appExecuteStatus execute_command execBody
    simp only [h1]
    simp [wrapExc, PyExc.msg, Except.mapError]
  · have h2 : is_command_allowed (sanitize_command "ls".toList) = true := by
      decide
    unfold appExecuteStatus execute_command execBody
    simp only [h2]
    simp [truthy, wrapExc, PyExc.msg, Except.mapError]

/-- Claim C8: on every exit path, if the SSH client was created then the
last recorded operation is the `finally`-clause close; `test_connection`
always creates the client and always closes it. -/
theorem sessions_closed (net : Net) (host username : List Char) (port : Nat)
    (password ssh_key : Option (List Char)) (command : List Char) :
    (Act.createClient ∈
        (execute_command net host username port password ssh_key command).2 →
      (execute_command net host username port password ssh_key command).2.getLast?
        = some Act.closeClient)
      ∧ (test_connection net host username port password ssh_key).2.getLast?
          = some Act.closeClient := by
  constructor
  · intro hmem
    unfold execute_command at hmem ⊢
    by_cases hc : Act.createClient ∈
        (execBody net host username port password ssh_key command).2
    · simp only [if_pos hc]
      simp
    · simp only [if_neg hc] at hmem
      exact absurd hmem hc
  · unfold test_connection
    simp

/-- Witness for C8: a run that creates a client ends with the close. -/
theorem sessions_closed_w :
    Act.createClient ∈
        (execute_command netOk "h".toList "u".toList 22 (some "pw".toList)
          none "ls".toList).2
      ∧ (execute_command netOk "h".toList "u".toList 22 (some "pw".toList)
          none "ls".toList).2.getLast? = some Act.closeClient :=
  ⟨by decide,
   (sessions_closed netOk "h".toList "u".toList 22 (some "pw".toList) none
     "ls".toList).1 (by decide)⟩

set_option maxHeartbeats 1600000 in
/-- Claim C9: a truthy `ssh_key` always wins — no password connect is ever
attempted and the key is parsed/used; the missing-credential `ValueError`
of `execute_command` occurs exactly when both credentials are falsy, and
`test_connection` hits its credential-less `return False` (a bare
create/close trace) exactly when both are falsy. -/
theorem key_preferred_over_password (net : Net) (host username : List Char)
    (port : Nat) (password ssh_key : Option (List Char)) (command : List Char) :
    (truthy ssh_key = true →
        (∀ a ∈ (execute_command net host username port password ssh_key
            command).2, a.isConnectPwd = false)
      ∧ (∀ a ∈ (test_connection net host username port password ssh_key).2,
            a.isConnectPwd = false)
      ∧ Act.parseKey (ssh_key.getD [])
          ∈ (test_connection net host username port password ssh_key).2
      ∧ (is_command_allowed command = true →
          Act.parseKey (ssh_key.getD [])
            ∈ (execute_command net host username port password ssh_key
                command).2))
      ∧ (is_command_allowed command = true →
          ((execBody net host username port password ssh_key command).1
              = .error (.valueErr missingCredMsg)
            ↔ truthy password = false ∧ truthy ssh_key = false))
      ∧ ((truthy password = false ∧ truthy ssh_key = false) ↔
          (test_connection net host username port password ssh_key).2
            = [Act.createClient, Act.closeClient]) := by
  obtain ⟨kp, cn, ex, eo, ee, ec⟩ := net
  cases hk : truthy ssh_key <;> cases hp : truthy password <;>
    cases hrej : is_command_allowed command <;>
    cases kp <;> cases cn <;> cases ex <;>
    simp [execute_command, execBody, test_connection, testBody, hk, hp, hrej,
      Act.isConnectPwd]

/-- Witness for C9 with both credentials supplied and an allowed command. -/
theorem key_preferred_over_password_w :
    truthy (some "key".toList) = true
      ∧ (∀ a ∈ (execute_command netOk "h".toList "u".toList 22
          (some "pw".toList) (some "key".toList) "ls".toList).2,
            a.isConnectPwd = false)
      ∧ ((execBody netOk "h".toList "u".toList 22 (some "pw".toList)
            (some "key".toList) "ls".toList).1
          = .error (.valueErr missingCredMsg)
        ↔ truthy (some "pw".toList) = false
            ∧ truthy (some "key".toList) = false) :=
  ⟨by decide,
   ((key_preferred_over_password netOk "h".toList "u".toList 22
      (some "pw".toList) (some "key".toList) "ls".toList).1 (by decide)).1,
   (key_preferred_over_password netOk "h".toList "u".toList 22
      (some "pw".toList) (some "key".toList) "ls".toList).2.1 (by decide)⟩

/-- Claim C7: `test_connection` yields `false` — with a bare create/close
trace and no network operation — when neither credential is truthy, and
yields `false` whenever key parsing, connecting or executing fails.  (It
never raises: in the model its result type is `Bool`, matching the
catch-all `except` clause.) -/
theorem test_connection_false_on_failure (net : Net)
    (host username : List Char) (port : Nat)
    (password ssh_key : Option (List Char)) :
    ((truthy password = false ∧ truthy ssh_key = false) →
        (test_connection net host username port password ssh_key).1 = false
      ∧ ∀ a ∈ (test_connection net host username port password ssh_key).2,
          a = Act.createClient ∨ a = Act.closeClient)
      ∧ (net.connect.isSome = true →
          (test_connection net host username port password ssh_key).1 = false)
      ∧ (net.exec.isSome = true →
          (test_connection net host username port password ssh_key).1 = false)
      ∧ (truthy ssh_key = true → net.keyParse.isSome = true →
          (test_connection net host username port password ssh_key).1 = false) := by
  obtain ⟨kp, cn, ex, eo, ee, ec⟩ := net
  cases hk : truthy ssh_key <;> cases hp : truthy password <;>
    cases kp <;> cases cn <;> cases ex <;>
    simp [test_connection, testBody, hk, hp]

/-- Witness for C7: missing credentials and an all-failing network. -/
theorem test_connection_false_on_failure_w :
    (test_connection netBad "h".toList "u".toList 22 none none).1 = false
      ∧ (test_connection netBad "h".toList "u".toList 22 (some "pw".toList)
          (some "key".toList)).1 = false :=
  ⟨((test_connection_false_on_failure netBad "h".toList "u".toList 22 none
      none).1 ⟨rfl, rfl⟩).1,
   (test_connection_false_on_failure netBad "h".toList "u".toList 22
      (some "pw".toList) (some "key".toList)).2.2.2 (by decide) (by decide)⟩
